import Mathlib

/-!
Shallow embedding of the RNAcentral webinar notebook
(`src/ProgrammaticDataAccess.ipynb`).

The notebook's reproducible logic consists of:
* a significance filter `de_data = de_data[de_data["pvalue"] < 0.01]`;
* `get_rna_data`, decorated with `@limits(calls=20, period=1)` from the
  PyPI `ratelimit` package, applied across the `urs_taxid` column with
  `progress_map` (a sequential, order-preserving elementwise map);
* `get_publications`, which queries the LitScan search endpoint and turns
  each returned entry into a (title, pmcid, link) record.

The network is modelled as a function from URL to response; time is modelled
as exact rational clock readings fed to the rate limiter.  The `ratelimit`
package's `RateLimitDecorator` (the notebook imports its alias `limits`, and
does not use `sleep_and_retry`) is embedded faithfully: it keeps a fixed
window `(last_reset, num_calls)`, clamps the configured call count to
`max 1 (floor calls)` at construction with no validation error, resets the
window when at least `period` has elapsed since `last_reset`, and raises
`RateLimitException` (it does not sleep) when the incremented in-window call
count exceeds the clamp.
-/

/-- JSON values as returned by `response.json()`: an open, schema-less tree. -/
inductive Json where
  | null : Json
  | bool (b : Bool) : Json
  | num (q : ℚ) : Json
  | str (s : String) : Json
  | arr (elems : List Json) : Json
  | obj (fields : List (String × Json)) : Json

/-- An HTTP response: a status code and a body.  `body = some j` means the
body is valid JSON decoding to `j`; `body = none` means `response.json()`
would raise a decode error. -/
structure Response where
  status : Nat
  body : Option Json

/-- The only failure `get_rna_data` itself can produce on a delivered
response: `response.json()` failing to decode.  The function performs no
status check, so there is deliberately no status-error constructor. -/
inductive FetchError where
  | decodeError : FetchError
deriving DecidableEq

/-- URL built by `get_rna_data`: the fixed template
`https://rnacentral.org/api/v1/rna/` followed by the interpolated
identifier, exactly as the notebook's f-string produces. -/
def mkRnaUrl (rnacentral_id : String) : String :=
  "https://rnacentral.org/api/v1/rna/" ++ rnacentral_id

/-- Decoding of a response body, modelling `response.json()`. -/
def decodeBody (resp : Response) : Except FetchError Json :=
  match resp.body with
  | some j => Except.ok j
  | none => Except.error FetchError.decodeError

/-- Embedding of the notebook's `get_rna_data` (the undecorated body):
build the URL, issue one GET against `net`, return the decoded JSON body.
The second component is the request log: the list of URLs this invocation
requested, in order (here always exactly one). -/
def get_rna_data (net : String → Response) (rnacentral_id : String) :
    Except FetchError Json × List String :=
  (decodeBody (net (mkRnaUrl rnacentral_id)), [mkRnaUrl rnacentral_id])

/-- Subtraction of rationals, written out on numerators and denominators so
that it evaluates by kernel reduction; `qsub_eq_sub` below proves it is the
ordinary subtraction of `ℚ`. -/
def qsub (a b : ℚ) : ℚ :=
  mkRat (a.num * b.den - b.num * a.den) (a.den * b.den)

/-- Configuration of the `ratelimit` decorator as applied in the notebook:
`limits(calls=20, period=1)`.  `calls` is an integer, `period` a clock
duration in seconds. -/
structure RateConfig where
  calls : Int
  period : ℚ

/-- The clamp the `ratelimit` package applies at decorator construction:
`max(1, min(sys.maxsize, floor(calls)))`.  Note a non-positive `calls` is
silently clamped to 1; no error is raised. -/
def RateConfig.clamped_calls (cfg : RateConfig) : Nat :=
  max 1 cfg.calls.toNat

/-- Mutable state of the `RateLimitDecorator`: the clock reading of the last
window reset and the number of calls attempted in the current window. -/
structure RLState where
  last_reset : ℚ
  num_calls : Nat
deriving DecidableEq

/-- Outcome of one wrapped call attempt: either the inner function is
invoked (`admitted`) or `RateLimitException` is raised (`rateLimited`). -/
inductive CallOutcome where
  | admitted : CallOutcome
  | rateLimited : CallOutcome
deriving DecidableEq

/-- One attempt through the `ratelimit` wrapper at clock reading `t`:
if at least `period` has elapsed since `last_reset` the window resets
(`last_reset := t`, `num_calls := 0`); then `num_calls` is incremented and,
if it now exceeds the clamped call count, `RateLimitException` is raised
instead of calling the inner function.  There is no sleeping. -/
def limitsStep (cfg : RateConfig) (s : RLState) (t : ℚ) : CallOutcome × RLState :=
  let s1 : RLState := if qsub cfg.period (qsub t s.last_reset) ≤ 0 then ⟨t, 0⟩ else s
  if s1.num_calls + 1 > cfg.clamped_calls then
    (CallOutcome.rateLimited, ⟨s1.last_reset, s1.num_calls + 1⟩)
  else
    (CallOutcome.admitted, ⟨s1.last_reset, s1.num_calls + 1⟩)

/-- Record of one call attempt in a run: its clock reading, its outcome, and
the window-reset reading in force immediately after the attempt. -/
structure StepRec where
  time : ℚ
  outcome : CallOutcome
  resetAfter : ℚ
deriving DecidableEq

/-- Run of the rate limiter over a chronological list of call-attempt clock
readings, producing the record of every attempt and the final state. -/
def limitsRun (cfg : RateConfig) : RLState → List ℚ → List StepRec × RLState
  | s, [] => ([], s)
  | s, t :: ts =>
    let p := limitsStep cfg s t
    let q := limitsRun cfg p.2 ts
    (⟨t, p.1, p.2.last_reset⟩ :: q.1, q.2)

/-- Number of admitted calls recorded against the window that was reset at
clock reading `r` (the fixed window identified by its reset time). -/
def countEpoch (recs : List StepRec) (r : ℚ) : Nat :=
  recs.countP (fun sr => decide (sr.resetAfter = r ∧ sr.outcome = CallOutcome.admitted))

/-- Clock readings of the admitted calls of a run, in order. -/
def admittedTimes (recs : List StepRec) : List ℚ :=
  (recs.filter (fun sr => decide (sr.outcome = CallOutcome.admitted))).map StepRec.time

/-- Failures that abort the notebook's `progress_map` pass: the rate
limiter raising `RateLimitException`, or `response.json()` failing. -/
inductive BatchError where
  | rateLimitException : BatchError
  | jsonDecodeError : BatchError
deriving DecidableEq

/-- Embedding of `de_data["urs_taxid"].progress_map(get_rna_data)` with the
`@limits` wrapper: identifiers are processed strictly in order; each call
attempt first passes through the rate limiter at its clock reading, and any
raised exception aborts the whole pass.  On success the decoded records are
collected in input order. -/
def enrichRun (cfg : RateConfig) (net : String → Response) :
    RLState → List (String × ℚ) → Except BatchError (List Json)
  | _, [] => Except.ok []
  | s, (rid, t) :: rest =>
    match limitsStep cfg s t with
    | (CallOutcome.rateLimited, _) => Except.error BatchError.rateLimitException
    | (CallOutcome.admitted, s1) =>
      match (net (mkRnaUrl rid)).body with
      | none => Except.error BatchError.jsonDecodeError
      | some j =>
        match enrichRun cfg net s1 rest with
        | Except.error e => Except.error e
        | Except.ok out => Except.ok (j :: out)

/-- A `pvalue` cell of the DESeq2 table: a floating-point reading modelled
as an exact rational, or NaN (missing value). -/
inductive PValue where
  | num (q : ℚ) : PValue
  | nan : PValue
deriving DecidableEq

/-- IEEE semantics of `pvalue < c` as pandas evaluates it elementwise:
an ordinary comparison on numbers, and `false` whenever the cell is NaN. -/
def pvalueLt (x : PValue) (c : ℚ) : Bool :=
  match x with
  | PValue.num q => decide (q < c)
  | PValue.nan => false

/-- One row of the DESeq2 results table (only the columns the notebook's
logic reads: the identifier and the p-value). -/
structure ResultRow where
  urs_taxid : String
  pvalue : PValue
deriving DecidableEq

/-- Embedding of `de_data[de_data["pvalue"] < 0.01]`: keep exactly the rows
whose `pvalue` compares strictly below the 0.01 threshold (`mkRat 1 100`). -/
def filterSignificant (rows : List ResultRow) : List ResultRow :=
  rows.filter (fun r => pvalueLt r.pvalue (mkRat 1 100))

/-- One entry (`hit`) of the LitScan search response: `fields.title` and
`fields.pmcid`, each a list of strings as delivered by the endpoint (the
notebook indexes element 0 of each). -/
structure SearchHit where
  title : List String
  pmcid : List String
deriving DecidableEq

/-- The decoded LitScan search response: its `entries` collection. -/
structure SearchResponse where
  entries : List SearchHit

/-- One output row of `get_publications`' dataframe. -/
structure PublicationRecord where
  title : String
  pmcid : String
  link : String
deriving DecidableEq

/-- Link derivation of `get_publications`: the fixed PMC template with the
pmcid interpolated, exactly as the notebook's f-string produces. -/
def mkPmcLink (pmcid : String) : String :=
  "https://www.ncbi.nlm.nih.gov/pmc/articles/" ++ pmcid ++ "/"

/-- Query URL built by `get_publications` from the gene names. -/
def mkLitScanUrl (genes : List String) : String :=
  "https://www.ebi.ac.uk/ebisearch/ws/rest/rnacentral-litscan?query=entry_type:Publication AND (" ++
    String.intercalate " OR " (genes.map (fun gene => "job_id:\"" ++ gene ++ "\"")) ++
    ")&fields=title,pmcid&format=json"

/-- Elementwise extraction `[get(hit)[0] for hit in entries]`: takes the
first element of the selected field of every entry, failing (as the Python
indexing would) when any entry's field list is empty. -/
def extractHeads (get : SearchHit → List String) : List SearchHit → Option (List String)
  | [] => some []
  | hit :: rest =>
    match (get hit).head?, extractHeads get rest with
    | some x, some xs => some (x :: xs)
    | _, _ => none

/-- Embedding of the notebook's `get_publications`: build the query URL from
the gene names, issue one GET against `net`, extract the titles and pmcids
of every returned entry in order, derive each link from the pmcid, and zip
the three columns into the output records. -/
def get_publications (net : String → SearchResponse) (genes : List String) :
    Option (List PublicationRecord) :=
  let r := net (mkLitScanUrl genes)
  match extractHeads SearchHit.title r.entries, extractHeads SearchHit.pmcid r.entries with
  | some titles, some pmcids =>
      some (List.zipWith (fun t p => ⟨t, p, mkPmcLink p⟩) titles pmcids)
  | _, _ => none

/-- A fixed enrichment-endpoint body used in concrete runs. -/
def lncObj : Json :=
  Json.obj [("rna_type", Json.str "lncRNA")]

/-- A network for concrete runs: every URL answers 200 with `lncObj`. -/
def okNet : String → Response :=
  fun _ => ⟨200, some lncObj⟩

/-- The enrichment body named by the spec's field-preservation test. -/
def mirnaObj : Json :=
  Json.obj [("rna_type", Json.str "miRNA"), ("genes", Json.arr [Json.str "g1", Json.str "g2"])]

/-- A network answering 200 with `mirnaObj` on every URL. -/
def net200 : String → Response :=
  fun _ => ⟨200, some mirnaObj⟩

/-- A JSON error body such as the RNAcentral API returns for a missing id. -/
def notFoundObj : Json :=
  Json.obj [("detail", Json.str "Not found.")]

/-- A network answering 404 with a valid JSON error body on every URL. -/
def net404 : String → Response :=
  fun _ => ⟨404, some notFoundObj⟩

/-- Forty-one zero-latency call attempts: every identifier is requested at
clock reading 0, as an instrumented zero-latency fake endpoint would see. -/
def zeroTrace41 : List (String × ℚ) :=
  List.replicate 41 ("URS0000000001_7227", 0)

/-- A burst trace: twenty call attempts at clock reading 0.9 followed by
twenty at clock reading 1.05, all inside one trailing 1-second interval. -/
def burstTrace : List ℚ :=
  List.replicate 20 (mkRat 9 10) ++ List.replicate 20 (mkRat 21 20)

/-- A search endpoint answering every query with two well-formed entries. -/
def litNet : String → SearchResponse :=
  fun _ => ⟨[⟨["Title one"], ["PMC1111111"]⟩, ⟨["Title two"], ["PMC2222222"]⟩]⟩

/-! ## Helper lemmas -/

/-- The explicit subtraction `qsub` is the subtraction of `ℚ`. -/
theorem qsub_eq_sub (a b : ℚ) : qsub a b = a - b := by
  rw [qsub, Rat.mkRat_eq_divInt]
  conv_rhs => rw [← Rat.num_divInt_den a, ← Rat.num_divInt_den b]
  rw [Rat.divInt_sub_divInt _ _ (Int.natCast_ne_zero.mpr a.den_nz)
    (Int.natCast_ne_zero.mpr b.den_nz)]
  push_cast
  ring_nf

/-- The clamped call count is always at least one. -/
theorem clamped_pos (cfg : RateConfig) : 1 ≤ cfg.clamped_calls :=
  le_max_left 1 _

/-- When at least `period` has elapsed, the step resets the window and
admits the call (the clamp is at least one). -/
theorem limitsStep_reset (cfg : RateConfig) (s : RLState) (t : ℚ)
    (h : qsub cfg.period (qsub t s.last_reset) ≤ 0) :
    limitsStep cfg s t = (CallOutcome.admitted, ⟨t, 1⟩) := by
  have hc := clamped_pos cfg
  simp only [limitsStep, if_pos h]
  rw [if_neg (by simp; omega)]

/-- When the window persists and the incremented count stays within the
clamp, the step admits the call. -/
theorem limitsStep_noreset_within (cfg : RateConfig) (s : RLState) (t : ℚ)
    (h : ¬ qsub cfg.period (qsub t s.last_reset) ≤ 0)
    (h2 : s.num_calls + 1 ≤ cfg.clamped_calls) :
    limitsStep cfg s t = (CallOutcome.admitted, ⟨s.last_reset, s.num_calls + 1⟩) := by
  simp only [limitsStep, if_neg h]
  rw [if_neg (by omega)]

/-- When the window persists and the incremented count exceeds the clamp,
the step raises `RateLimitException`. -/
theorem limitsStep_noreset_raise (cfg : RateConfig) (s : RLState) (t : ℚ)
    (h : ¬ qsub cfg.period (qsub t s.last_reset) ≤ 0)
    (h2 : cfg.clamped_calls < s.num_calls + 1) :
    limitsStep cfg s t = (CallOutcome.rateLimited, ⟨s.last_reset, s.num_calls + 1⟩) := by
  simp only [limitsStep, if_neg h]
  rw [if_pos (by omega)]

/-! ## C5 and C10: the significance filter -/

/-- C5: the significance filter retains exactly the rows whose pvalue is
strictly less than the 0.01 threshold; on the table
`[(A, 0.001), (B, 0.5)]` only row A is retained. -/
theorem c5_filter_retains_significant (rows : List ResultRow) (r : ResultRow) :
    (r ∈ filterSignificant rows ↔ r ∈ rows ∧ pvalueLt r.pvalue (mkRat 1 100) = true) ∧
    filterSignificant [⟨"A", PValue.num (mkRat 1 1000)⟩, ⟨"B", PValue.num (mkRat 1 2)⟩] =
      [⟨"A", PValue.num (mkRat 1 1000)⟩] := by
  constructor
  · simp [filterSignificant, List.mem_filter]
  · decide

/-- Witness for C5: the iff instantiated on the spec's two-row table. -/
theorem c5_witness :
    filterSignificant [⟨"A", PValue.num (mkRat 1 1000)⟩, ⟨"B", PValue.num (mkRat 1 2)⟩] =
      [⟨"A", PValue.num (mkRat 1 1000)⟩] :=
  (c5_filter_retains_significant [] ⟨"A", PValue.num 0⟩).2

/-- C10: a row whose pvalue is NaN is never retained by the significance
filter, because `NaN < 0.01` evaluates to false. -/
theorem c10_filter_excludes_nan (rows : List ResultRow) (r : ResultRow)
    (h : r ∈ filterSignificant rows) : r.pvalue ≠ PValue.nan := by
  rw [filterSignificant, List.mem_filter] at h
  intro hn
  rw [hn] at h
  simp [pvalueLt] at h

/-- Witness for C10 at a concrete retained row. -/
theorem c10_witness :
    (⟨"A", PValue.num (mkRat 1 1000)⟩ : ResultRow) ∈
        filterSignificant [⟨"A", PValue.num (mkRat 1 1000)⟩] ∧
    (⟨"A", PValue.num (mkRat 1 1000)⟩ : ResultRow).pvalue ≠ PValue.nan :=
  ⟨by decide,
    c10_filter_excludes_nan [⟨"A", PValue.num (mkRat 1 1000)⟩]
      ⟨"A", PValue.num (mkRat 1 1000)⟩ (by decide)⟩

/-! ## C6, C8, C9: the enrichment call -/

/-- C6: the enrichment result for an identifier is exactly the JSON object
the endpoint returned, with no fields added, removed or coerced: if the
endpoint answers with the miRNA object for identifier A, the output record
for A is exactly that object. -/
theorem c6_enrichment_unmodified (net : String → Response)
    (h : (net (mkRnaUrl "A")).body = some mirnaObj) :
    (get_rna_data net "A").1 = Except.ok mirnaObj := by
  simp [get_rna_data, decodeBody, h]

/-- Witness for C6 on a network that returns the miRNA object. -/
theorem c6_witness :
    (net200 (mkRnaUrl "A")).body = some mirnaObj ∧
    (get_rna_data net200 "A").1 = Except.ok mirnaObj :=
  ⟨rfl, c6_enrichment_unmodified net200 rfl⟩

/-- C8: each invocation of `get_rna_data` issues exactly one HTTP GET, whose
URL is the fixed template with the identifier interpolated at the end. -/
theorem c8_single_get_fixed_template (net : String → Response) (rid : String) :
    (get_rna_data net rid).2 = ["https://rnacentral.org/api/v1/rna/" ++ rid] :=
  rfl

/-- C9: `get_rna_data` decodes and returns the response body regardless of
the HTTP status code: even for an error status (≥ 400) whose body is valid
JSON, the decoded error body is returned and no status error is raised
(the code performs no status check; `FetchError` has no status
constructor). -/
theorem c9_no_status_check (net : String → Response) (rid : String) (j : Json)
    (_hstatus : 400 ≤ (net (mkRnaUrl rid)).status)
    (hbody : (net (mkRnaUrl rid)).body = some j) :
    (get_rna_data net rid).1 = Except.ok j := by
  simp [get_rna_data, decodeBody, hbody]

/-- Witness for C9 on a 404 response carrying a JSON error body. -/
theorem c9_witness :
    400 ≤ (net404 (mkRnaUrl "URS0000000001_9606")).status ∧
    (net404 (mkRnaUrl "URS0000000001_9606")).body = some notFoundObj ∧
    (get_rna_data net404 "URS0000000001_9606").1 = Except.ok notFoundObj :=
  ⟨by decide, rfl, c9_no_status_check net404 "URS0000000001_9606" notFoundObj (by decide) rfl⟩

/-! ## C1: the enrichment mapper preserves length and order -/

/-- C1: whenever the enrichment pass over an ordered sequence of
identifiers returns a result (every admitted remote call succeeded and no
exception aborted the pass), the result has the same length as the input
and, position by position, `out[i]` is the decoded body of the response to
the request for `input[i]`. -/
theorem c1_enrich_preserves_order (cfg : RateConfig) (net : String → Response)
    (s : RLState) (l : List (String × ℚ)) (out : List Json)
    (hok : enrichRun cfg net s l = Except.ok out) :
    out.length = l.length ∧
      ∀ i rid t, l.get? i = some (rid, t) → (net (mkRnaUrl rid)).body = out.get? i := by
  induction l generalizing s out with
  | nil =>
    simp only [enrichRun] at hok
    cases hok
    exact ⟨rfl, by intro i rid t h; simp at h⟩
  | cons p rest ih =>
    obtain ⟨rid, t⟩ := p
    simp only [enrichRun] at hok
    split at hok
    · exact absurd hok (by simp)
    · rename_i s1 heq
      split at hok
      · exact absurd hok (by simp)
      · rename_i j hbody
        split at hok
        · exact absurd hok (by simp)
        · rename_i out2 hrest
          injection hok with hout
          subst hout
          obtain ⟨ih1, ih2⟩ := ih s1 out2 hrest
          refine ⟨by simp [ih1], ?_⟩
          intro i rid2 t2 h
          cases i with
          | zero =>
            simp at h
            obtain ⟨h1, h2⟩ := h
            subst h1
            simpa using hbody
          | succ i =>
            simpa using ih2 i rid2 t2 (by simpa using h)

/-- Witness for C1 on a two-identifier batch against `okNet`. -/
theorem c1_witness :
    enrichRun ⟨20, 1⟩ okNet ⟨0, 0⟩ [("URS00002078D1_6239", 0), ("URS0000416056_7227", 0)] =
      Except.ok [lncObj, lncObj] ∧
    ([lncObj, lncObj] : List Json).length =
      ([("URS00002078D1_6239", (0 : ℚ)), ("URS0000416056_7227", 0)]).length :=
  ⟨rfl, (c1_enrich_preserves_order ⟨20, 1⟩ okNet ⟨0, 0⟩
      [("URS00002078D1_6239", 0), ("URS0000416056_7227", 0)] [lncObj, lncObj] rfl).1⟩

/-! ## C2: forty-one zero-latency calls raise instead of pausing -/

/-- C2 counterexample: with the notebook's configuration (20 calls per
1-second window) and a zero-latency fake endpoint, a batch of 41 calls does
not complete successfully: the pass is aborted by `RateLimitException`
(at the 21st call), contradicting the claim that the mapper pauses and all
41 calls eventually proceed. -/
theorem c2_counterexample :
    enrichRun ⟨20, 1⟩ okNet ⟨0, 0⟩ zeroTrace41 = Except.error BatchError.rateLimitException :=
  rfl

/-- C2 as amended: when admitting the next call would exceed the clamped
call count within the current fixed window, the `ratelimit` wrapper raises
`RateLimitException` instead of pausing: of 41 zero-latency call attempts,
the first 20 are admitted and attempts 21 through 41 all raise, with no
delay ever inserted (every attempt carries the same clock reading 0). -/
theorem c2_raises_instead_of_pausing :
    (limitsRun ⟨20, 1⟩ ⟨0, 0⟩ (List.replicate 41 0)).1.map StepRec.outcome =
      List.replicate 20 CallOutcome.admitted ++ List.replicate 21 CallOutcome.rateLimited := by
  decide

/-! ## C4: no configuration validation exists -/

/-- C4 counterexample: with the invalid configuration `calls = 0` no
`ConfigurationError` is raised; the count is silently clamped to 1 and the
first call is admitted, so a network request is attempted (the one-element
batch completes and returns the decoded response).  Moreover, for the valid
configuration `calls = 20, period = 1` the limiter's own logic can fail:
a 21st in-window attempt raises `RateLimitException`. -/
theorem c4_counterexample :
    RateConfig.clamped_calls ⟨0, 1⟩ = 1 ∧
    enrichRun ⟨0, 1⟩ okNet ⟨0, 0⟩ [("URS0000000001_7227", 0)] = Except.ok [lncObj] ∧
    (limitsStep ⟨20, 1⟩ ⟨0, 20⟩ 0).1 = CallOutcome.rateLimited :=
  ⟨rfl, rfl, rfl⟩

/-- C4 as amended: the `ratelimit` decorator performs no configuration
validation.  A non-positive `calls` is clamped to 1; from a fresh window the
first attempt is always admitted (so a network call is attempted, with no
error raised beforehand, whatever the configuration); and with a
non-positive `period` every attempt on a monotone clock resets the window
and is admitted. -/
theorem c4_no_config_validation (cfg : RateConfig) (s : RLState) (t : ℚ) :
    (cfg.calls ≤ 0 → cfg.clamped_calls = 1) ∧
    (s.num_calls = 0 → (limitsStep cfg s t).1 = CallOutcome.admitted) ∧
    (cfg.period ≤ 0 → s.last_reset ≤ t → (limitsStep cfg s t).1 = CallOutcome.admitted) := by
  refine ⟨?_, ?_, ?_⟩
  · intro h
    simp [RateConfig.clamped_calls, Int.toNat_of_nonpos h]
  · intro h
    by_cases hres : qsub cfg.period (qsub t s.last_reset) ≤ 0
    · rw [limitsStep_reset cfg s t hres]
    · rw [limitsStep_noreset_within cfg s t hres (by rw [h]; exact clamped_pos cfg)]
  · intro hper hle
    have hres : qsub cfg.period (qsub t s.last_reset) ≤ 0 := by
      rw [qsub_eq_sub, qsub_eq_sub]
      have h1 : (0 : ℚ) ≤ t - s.last_reset := sub_nonneg.mpr hle
      linarith
    rw [limitsStep_reset cfg s t hres]

/-- Witness for C4 at the invalid configuration `calls = 0, period = 1`. -/
theorem c4_witness :
    ((⟨0, 1⟩ : RateConfig).calls ≤ 0) ∧ RateConfig.clamped_calls ⟨0, 1⟩ = 1 ∧
    (limitsStep ⟨0, 1⟩ ⟨0, 0⟩ 0).1 = CallOutcome.admitted :=
  ⟨by decide, (c4_no_config_validation ⟨0, 1⟩ ⟨0, 0⟩ 0).1 (by decide),
    (c4_no_config_validation ⟨0, 1⟩ ⟨0, 0⟩ 0).2.1 rfl⟩

/-! ## C3: the admission bound is per fixed window, not per trailing window -/

/-- Admitted-count of a cons with an admitted head record. -/
theorem countEpoch_cons_admitted (t ra : ℚ) (recs : List StepRec) (r : ℚ) :
    countEpoch (⟨t, CallOutcome.admitted, ra⟩ :: recs) r =
      countEpoch recs r + (if ra = r then 1 else 0) := by
  by_cases h : ra = r <;> simp [countEpoch, List.countP_cons, h]

/-- Admitted-count of a cons with a raising head record. -/
theorem countEpoch_cons_raise (t ra : ℚ) (recs : List StepRec) (r : ℚ) :
    countEpoch (⟨t, CallOutcome.rateLimited, ra⟩ :: recs) r = countEpoch recs r := by
  simp [countEpoch, List.countP_cons]

/-- Unfolding of one step of a limiter run. -/
theorem limitsRun_cons (cfg : RateConfig) (s : RLState) (t : ℚ) (ts : List ℚ) :
    limitsRun cfg s (t :: ts) =
      (⟨t, (limitsStep cfg s t).1, (limitsStep cfg s t).2.last_reset⟩ ::
          (limitsRun cfg (limitsStep cfg s t).2 ts).1,
        (limitsRun cfg (limitsStep cfg s t).2 ts).2) := by
  rfl

/-- Invariant of a limiter run over a chronological trace (positive period):
every window that opens later than the current one admits at most the
clamped count; the current window has already used `num_calls` of its
budget; and no record is ever charged to a window earlier than the current
one. -/
theorem limitsRun_epoch_bound (cfg : RateConfig) (hper : 0 < cfg.period) (ts : List ℚ) :
    ∀ s : RLState, List.Chain' (· ≤ ·) (s.last_reset :: ts) →
      (∀ r, s.last_reset < r → countEpoch (limitsRun cfg s ts).1 r ≤ cfg.clamped_calls) ∧
      countEpoch (limitsRun cfg s ts).1 s.last_reset + min s.num_calls cfg.clamped_calls ≤
        cfg.clamped_calls ∧
      (∀ r, r < s.last_reset → countEpoch (limitsRun cfg s ts).1 r = 0) := by
  induction ts with
  | nil =>
    intro s _
    have hc := clamped_pos cfg
    refine ⟨fun r _ => ?_, ?_, fun r _ => ?_⟩ <;> simp [limitsRun, countEpoch]
  | cons t ts ih =>
    intro s hch
    have hst : s.last_reset ≤ t := (List.chain'_cons.mp hch).1
    have hch2 : List.Chain' (· ≤ ·) (t :: ts) := (List.chain'_cons.mp hch).2
    have hc := clamped_pos cfg
    by_cases hres : qsub cfg.period (qsub t s.last_reset) ≤ 0
    · -- window reset: the elapsed time is at least period > 0
      have hlt : s.last_reset < t := by
        have h1 : cfg.period - (t - s.last_reset) ≤ 0 := by
          rw [qsub_eq_sub, qsub_eq_sub] at hres; exact hres
        linarith
      obtain ⟨ha, hb, hc0⟩ := ih ⟨t, 1⟩ hch2
      dsimp only at ha hb hc0
      rw [min_eq_left hc] at hb
      rw [limitsRun_cons, limitsStep_reset cfg s t hres]
      dsimp only
      refine ⟨?_, ?_, ?_⟩
      · intro r hr
        rw [countEpoch_cons_admitted]
        rcases lt_trichotomy r t with h | h | h
        · rw [hc0 r h, if_neg (ne_of_gt h)]
          omega
        · subst h
          rw [if_pos rfl]
          omega
        · rw [if_neg (ne_of_lt h)]
          have := ha r h
          omega
      · rw [countEpoch_cons_admitted, hc0 _ hlt, if_neg (ne_of_gt hlt)]
        have := min_le_right s.num_calls cfg.clamped_calls
        omega
      · intro r hr
        rw [countEpoch_cons_admitted, hc0 r (hr.trans hlt), if_neg (ne_of_gt (hr.trans hlt))]
    · -- the window persists
      have hch3 : List.Chain' (· ≤ ·) (s.last_reset :: ts) := by
        rcases ts with _ | ⟨u, ts2⟩
        · simp
        · have htu : t ≤ u := (List.chain'_cons.mp hch2).1
          exact List.chain'_cons.mpr ⟨hst.trans htu, (List.chain'_cons.mp hch2).2⟩
      by_cases hlim : s.num_calls + 1 ≤ cfg.clamped_calls
      · obtain ⟨ha, hb, hc0⟩ := ih ⟨s.last_reset, s.num_calls + 1⟩ hch3
        dsimp only at ha hb hc0
        rw [min_eq_left hlim] at hb
        rw [limitsRun_cons, limitsStep_noreset_within cfg s t hres hlim]
        dsimp only
        rw [min_eq_left (by omega : s.num_calls ≤ cfg.clamped_calls)]
        refine ⟨?_, ?_, ?_⟩
        · intro r hr
          rw [countEpoch_cons_admitted, if_neg (ne_of_lt hr)]
          have := ha r hr
          omega
        · rw [countEpoch_cons_admitted, if_pos rfl]
          omega
        · intro r hr
          rw [countEpoch_cons_admitted, hc0 r hr, if_neg (ne_of_gt hr)]
      · obtain ⟨ha, hb, hc0⟩ := ih ⟨s.last_reset, s.num_calls + 1⟩ hch3
        dsimp only at ha hb hc0
        rw [min_eq_right (by omega : cfg.clamped_calls ≤ s.num_calls + 1)] at hb
        rw [limitsRun_cons, limitsStep_noreset_raise cfg s t hres (by omega)]
        dsimp only
        rw [min_eq_right (by omega : cfg.clamped_calls ≤ s.num_calls)]
        refine ⟨?_, ?_, ?_⟩
        · intro r hr
          rw [countEpoch_cons_raise]
          exact ha r hr
        · rw [countEpoch_cons_raise]
          omega
        · intro r hr
          rw [countEpoch_cons_raise]
          exact hc0 r hr

/-- C3 as amended: the `ratelimit` decorator enforces its ceiling per fixed
window, not per trailing window: over any chronological trace (and positive
period), every fixed window — identified by its reset reading — admits at
most the clamped call count.  The trailing-window bound claimed by the spec
fails (see the counterexample): two adjacent fixed windows can put up to 40
admitted calls inside a single trailing 1-second interval. -/
theorem c3_fixed_window_bound (cfg : RateConfig) (s : RLState) (ts : List ℚ)
    (hper : 0 < cfg.period) (hch : List.Chain' (· ≤ ·) (s.last_reset :: ts)) :
    ∀ r, countEpoch (limitsRun cfg s ts).1 r ≤ cfg.clamped_calls := by
  obtain ⟨ha, hb, hc0⟩ := limitsRun_epoch_bound cfg hper ts s hch
  intro r
  rcases lt_trichotomy r s.last_reset with h | h | h
  · rw [hc0 r h]
    exact Nat.zero_le _
  · subst h
    omega
  · exact ha r h

/-- Witness for C3 on the notebook configuration and a one-call trace. -/
theorem c3_witness :
    (0 : ℚ) < 1 ∧ List.Chain' (· ≤ ·) [(0 : ℚ), 0] ∧
    countEpoch (limitsRun ⟨20, 1⟩ ⟨0, 0⟩ [0]).1 0 ≤ RateConfig.clamped_calls ⟨20, 1⟩ :=
  ⟨by decide, List.chain'_pair.mpr (le_refl 0),
    c3_fixed_window_bound ⟨20, 1⟩ ⟨0, 0⟩ [0] (by decide) (List.chain'_pair.mpr (le_refl 0)) 0⟩

/-- C3 counterexample: on the notebook configuration (20 calls, 1-second
window, decoration at reading 0), the burst trace — twenty attempts at 0.9
and twenty at 1.05 — has all forty attempts admitted, and its two distinct
admission readings lie 3/20 of a second apart, i.e. inside one trailing
1-second interval; so a trailing 1-second interval does contain more than
20 admitted calls, refuting the claimed trailing-window bound. -/
theorem c3_counterexample :
    admittedTimes (limitsRun ⟨20, 1⟩ ⟨0, 0⟩ burstTrace).1 =
      List.replicate 20 (mkRat 9 10) ++ List.replicate 20 (mkRat 21 20) ∧
    (admittedTimes (limitsRun ⟨20, 1⟩ ⟨0, 0⟩ burstTrace).1).length = 40 ∧
    qsub (mkRat 21 20) (mkRat 9 10) = mkRat 3 20 ∧ (mkRat 3 20 : ℚ) < 1 :=
  ⟨by decide, by decide, by decide, by decide⟩

/-! ## C7: the publication lookup -/

/-- Extraction of the first element of a field succeeds on a list of
entries exactly when no entry has an empty field, and then produces the
heads in entry order. -/
theorem extractHeads_eq (get : SearchHit → List String) (l : List SearchHit)
    (h : ∀ hit ∈ l, get hit ≠ []) :
    extractHeads get l = some (l.map (fun hit => (get hit).headD "")) := by
  induction l with
  | nil => rfl
  | cons hit rest ih =>
    have h1 : get hit ≠ [] := h hit (by simp)
    have h2 := ih (fun y hy => h y (by simp [hy]))
    simp only [extractHeads, h2]
    cases hg : get hit with
    | nil => exact absurd hg h1
    | cons a as => simp [hg]

/-- Zipping two maps over the same list is a single map. -/
theorem zipWith_map_same {α β γ δ : Type} (f : β → γ → δ) (g : α → β) (g2 : α → γ)
    (l : List α) :
    List.zipWith f (l.map g) (l.map g2) = l.map (fun x => f (g x) (g2 x)) := by
  induction l with
  | nil => rfl
  | cons a l ih => simp [ih]

/-- C7: when every entry of the search response is well formed (non-empty
title and pmcid fields), the publication lookup yields exactly one record
per entry, in the order the endpoint returned them, each carrying the
entry's title, its pmcid, and the link derived from that pmcid by the fixed
PMC template. -/
theorem c7_publications_in_order (net : String → SearchResponse) (genes : List String)
    (hall : ((net (mkLitScanUrl genes)).entries.all
        (fun hit => !(hit.title.isEmpty) && !(hit.pmcid.isEmpty))) = true) :
    get_publications net genes =
      some ((net (mkLitScanUrl genes)).entries.map (fun hit =>
        ⟨hit.title.headD "", hit.pmcid.headD "", mkPmcLink (hit.pmcid.headD "")⟩)) := by
  have hall2 : ∀ hit ∈ (net (mkLitScanUrl genes)).entries,
      hit.title ≠ [] ∧ hit.pmcid ≠ [] := by
    intro hit hh
    have := List.all_eq_true.mp hall hit hh
    simp only [Bool.and_eq_true, Bool.not_eq_true', List.isEmpty_eq_false] at this
    simpa using this
  simp only [get_publications]
  rw [extractHeads_eq _ _ (fun hit hh => (hall2 hit hh).1),
      extractHeads_eq _ _ (fun hit hh => (hall2 hit hh).2)]
  simp [zipWith_map_same]

/-- Witness for C7 on a two-entry fake search endpoint. -/
theorem c7_witness :
    ((litNet (mkLitScanUrl ["dme-mir-4968"])).entries.all
        (fun hit => !(hit.title.isEmpty) && !(hit.pmcid.isEmpty))) = true ∧
    get_publications litNet ["dme-mir-4968"] = some
      [⟨"Title one", "PMC1111111", "https://www.ncbi.nlm.nih.gov/pmc/articles/PMC1111111/"⟩,
       ⟨"Title two", "PMC2222222", "https://www.ncbi.nlm.nih.gov/pmc/articles/PMC2222222/"⟩] :=
  ⟨rfl, by rw [c7_publications_in_order litNet ["dme-mir-4968"] rfl]; rfl⟩
